import Mathlib

/-!
Shallow embedding of the litani prototype (litani.py): a job registry that
accumulates job records across add-job invocations and a compiler (run-build)
that turns the registry into ninja rule and build-edge declarations.

The on-disk JSON cache is modelled as an `Option Cache` (the file may be
absent); each JSON job object is an `Entry` whose required keys are `Option`
fields so that records with missing keys are representable.  Process effects
of run-build (exit status, the record printed on validation failure, the
output file) are modelled by the `RunBuildResult` sum.
-/

namespace Litani

/-- The single-quote character, written via its code point. -/
def squote : String := String.mk [Char.ofNat 39]

/-- One job record of the JSON cache.  Each field is optional because a JSON
object may lack any key; entries written by add_job always carry the first
three. -/
structure Entry where
  inputs : Option (List String)
  outputs : Option (List String)
  command : Option String
  description : Option String
deriving DecidableEq

/-- The cache document: one top-level field holding the job sequence. -/
structure Cache where
  jobs : List Entry
deriving DecidableEq

/-- The argument bag of the add-job subcommand, as argparse delivers it:
inputs, outputs, command, pipeline name and CI stage are required flags;
description, timeout and ok-returns default to none; timeout-ok is a
store-true flag. -/
structure AddJobArgs where
  inputs : List String
  outputs : List String
  command : String
  description : Option String
  pipeline_name : String
  ci_stage : String
  timeout : Option Int
  timeout_ok : Bool
  ok_returns : Option (List String)
deriving DecidableEq

/-- Loading the cache in add_job: a missing file is recovered as the empty
registry (the FileNotFoundError handler). -/
def loadCacheOrEmpty : Option Cache → Cache
  | none => { jobs := [] }
  | some c => c

/-- The entry dict built by add_job: inputs, outputs, command always; the
description key only when args.description is truthy (neither absent nor the
empty string). -/
def mkEntry (args : AddJobArgs) : Entry :=
  { inputs := some args.inputs
    outputs := some args.outputs
    command := some args.command
    description :=
      match args.description with
      | some d => if d = "" then none else some d
      | none => none }

/-- add_job: load the cache (empty when the file is missing), append the new
entry at the end, persist the whole document.  The returned `Cache` is the
persisted state after the call. -/
def add_job (args : AddJobArgs) (st : Option Cache) : Cache :=
  let cache := loadCacheOrEmpty st
  { jobs := cache.jobs ++ [mkEntry args] }

/-- A sequence of add-job invocations threaded through the persisted state. -/
def run_add_jobs (calls : List AddJobArgs) (st : Option Cache) : Option Cache :=
  calls.foldl (fun s a => some (add_job a s)) st

/-- Membership in the regex character class [a-zA-Z0-9_] used by
to_rule_name. -/
def allowedChar (c : Char) : Bool :=
  decide ('a' ≤ c ∧ c ≤ 'z') ||
  decide ('A' ≤ c ∧ c ≤ 'Z') ||
  decide ('0' ≤ c ∧ c ≤ '9') ||
  c == '_'

/-- to_rule_name: keep exactly the characters matching [a-zA-Z0-9_]. -/
def to_rule_name (s : String) : String :=
  String.mk (s.data.filter allowedChar)

/-- A ninja rule declaration as assembled by run_build. -/
structure Rule where
  name : String
  description : String
  command : String
deriving DecidableEq

/-- A ninja build-edge declaration as assembled by run_build. -/
structure Build where
  inputs : List String
  outputs : List String
  rule : String
deriving DecidableEq

/-- The validation gate of run_build: all of inputs, outputs, command must be
present in the entry. -/
def entryValid (e : Entry) : Bool :=
  e.inputs.isSome && e.outputs.isSome && e.command.isSome

/-- The default description synthesized when an entry has none. -/
def defaultDescr (cmd : String) : String :=
  "Running " ++ squote ++ cmd ++ "..." ++ squote

/-- The compilation loop of run_build over the job sequence: the first entry
missing a required key aborts the whole compilation (it is the record that
gets printed before exit 1); otherwise one rule and one build edge are
emitted per entry, in registry order. -/
def run_build_compile : List Entry → Except Entry (List Rule × List Build)
  | [] => Except.ok ([], [])
  | e :: rest =>
    match e.inputs, e.outputs, e.command with
    | some ins, some outs, some cmd =>
      let descr :=
        match e.description with
        | some d => d
        | none => defaultDescr cmd
      let rule_name := to_rule_name cmd
      match run_build_compile rest with
      | Except.ok (rules, builds) =>
        Except.ok
          ({ name := rule_name, description := descr, command := cmd } :: rules,
           { inputs := ins, outputs := outs, rule := rule_name } :: builds)
      | Except.error bad => Except.error bad
    | _, _, _ => Except.error e

/-- Outcome of one run-build invocation: the cache file may be missing (the
unguarded open raises FileNotFoundError), validation may fail (the offending
record is printed, the process exits 1, no output file is written), or
compilation succeeds (litani.ninja is written, exit 0). -/
inductive RunBuildResult where
  | fileNotFound : RunBuildResult
  | validationFailure : Entry → RunBuildResult
  | success : List Rule → List Build → RunBuildResult
deriving DecidableEq

/-- run_build: open the cache (no recovery when the file is missing), then
compile and write litani.ninja. -/
def run_build (st : Option Cache) : RunBuildResult :=
  match st with
  | none => RunBuildResult.fileNotFound
  | some cache =>
    match run_build_compile cache.jobs with
    | Except.error e => RunBuildResult.validationFailure e
    | Except.ok (rules, builds) => RunBuildResult.success rules builds

/-- Process exit status of a run-build outcome (an uncaught exception also
terminates with a nonzero status). -/
def exitStatus : RunBuildResult → Nat
  | RunBuildResult.success _ _ => 0
  | _ => 1

/-- Content of the litani.ninja file written by run-build, none when nothing
is written. -/
def outputFile : RunBuildResult → Option (List Rule × List Build)
  | RunBuildResult.success r b => some (r, b)
  | _ => none

/-- The record printed before exit 1 on a validation failure. -/
def printedRecord : RunBuildResult → Option Entry
  | RunBuildResult.validationFailure e => some e
  | _ => none

/-- The rule run_build derives from a valid entry (stated with getD so that
it is total; it agrees with the loop on valid entries). -/
def ruleOf (e : Entry) : Rule :=
  let cmd := e.command.getD ""
  { name := to_rule_name cmd
    description := e.description.getD (defaultDescr cmd)
    command := cmd }

/-- The build edge run_build derives from a valid entry. -/
def buildOf (e : Entry) : Build :=
  { inputs := e.inputs.getD []
    outputs := e.outputs.getD []
    rule := to_rule_name (e.command.getD "") }

/-- Modelled from the spec: the character class the specification describes
for the sanitizer, namely ASCII letters, digits, or underscore. -/
def isSpecAllowed (c : Char) : Bool :=
  decide ('A' ≤ c ∧ c ≤ 'Z') ||
  decide ('a' ≤ c ∧ c ≤ 'z') ||
  decide ('0' ≤ c ∧ c ≤ '9') ||
  c == '_'

/-! Concrete data used by witnesses and counterexamples. -/

/-- A valid one-job registry entry. -/
def wEntry : Entry :=
  { inputs := some ["a.c"], outputs := some ["a.o"],
    command := some "gcc", description := none }

/-- A valid entry, for the mixed registry below. -/
def goodEntry : Entry :=
  { inputs := some ["g.c"], outputs := some ["g.o"],
    command := some "cc g.c", description := none }

/-- An entry whose outputs key is missing. -/
def badEntry : Entry :=
  { inputs := some ["b.c"], outputs := none,
    command := some "cc b.c", description := none }

/-- A registry holding one valid and one invalid record. -/
def mixedCache : Cache := { jobs := [goodEntry, badEntry] }

/-- Job whose command is run-bang. -/
def runBangEntry : Entry :=
  { inputs := some ["x"], outputs := some ["y"],
    command := some "run!", description := none }

/-- Job whose command is run-at. -/
def runAtEntry : Entry :=
  { inputs := some ["y"], outputs := some ["z"],
    command := some "run@", description := none }

/-- The add-job invocation of literal scenario 1. -/
def scenario1Args : AddJobArgs :=
  { inputs := ["a.c"], outputs := ["a.o"], command := "gcc -c a.c -o a.o",
    description := none, pipeline_name := "pipe", ci_stage := "build",
    timeout := none, timeout_ok := false, ok_returns := none }

/-- A valid entry whose command is entirely filtered characters. -/
def bangEntry : Entry :=
  { inputs := some ["in.txt"], outputs := some ["out.txt"],
    command := some "!!!", description := none }

/-- Another valid entry whose command sanitizes to the empty string. -/
def atAtEntry : Entry :=
  { inputs := some ["i"], outputs := some ["o"],
    command := some "@@", description := none }

/-- An add-job argument bag carrying concrete executor metadata. -/
def argsMetaA : AddJobArgs :=
  { inputs := ["x.c"], outputs := ["x.o"], command := "cc x.c",
    description := none, pipeline_name := "pipeA", ci_stage := "build",
    timeout := none, timeout_ok := false, ok_returns := none }

/-- The same build-graph data with every executor-metadata attribute
changed. -/
def argsMetaB : AddJobArgs :=
  { argsMetaA with
    pipeline_name := "pipeB"
    ci_stage := "test"
    timeout := some 30
    timeout_ok := true
    ok_returns := some ["1", "2"] }

/-- An add-job invocation passing an empty description string. -/
def emptyDescrArgs : AddJobArgs :=
  { inputs := ["m.c"], outputs := ["m.o"], command := "make m",
    description := some "", pipeline_name := "pipe", ci_stage := "report",
    timeout := none, timeout_ok := false, ok_returns := none }

/-! Helper lemmas shared between the claim theorems. -/

/-- The two character-class descriptions agree pointwise. -/
theorem allowedChar_eq_isSpecAllowed (c : Char) :
    allowedChar c = isSpecAllowed c := by
  simp [allowedChar, isSpecAllowed, Bool.or_comm, Bool.or_left_comm, Bool.or_assoc]

/-- On an all-valid registry the compile loop succeeds and emits exactly one
rule and one build edge per entry, in order. -/
theorem compile_ok_of_valid : ∀ jobs : List Entry,
    (∀ e ∈ jobs, entryValid e = true) →
    run_build_compile jobs = Except.ok (jobs.map ruleOf, jobs.map buildOf)
  | [], _ => rfl
  | e :: rest, h => by
    have he : entryValid e = true := h e (List.mem_cons_self e rest)
    have hrest : ∀ x ∈ rest, entryValid x = true :=
      fun x hx => h x (List.mem_cons_of_mem e hx)
    have ih := compile_ok_of_valid rest hrest
    simp only [entryValid, Bool.and_eq_true, Option.isSome_iff_exists] at he
    obtain ⟨⟨⟨ins, hins⟩, ⟨outs, houts⟩⟩, ⟨cmd, hcmd⟩⟩ := he
    cases hd : e.description <;>
      simp [run_build_compile, hins, houts, hcmd, hd, ih, ruleOf, buildOf]

/-- On a registry holding at least one invalid record, the compile loop
aborts with an invalid record of the registry. -/
theorem compile_error_of_invalid : ∀ jobs : List Entry,
    (∃ e ∈ jobs, entryValid e = false) →
    ∃ bad, run_build_compile jobs = Except.error bad ∧
      bad ∈ jobs ∧ entryValid bad = false
  | [], h => by simp at h
  | e :: rest, h => by
    by_cases hv : entryValid e = true
    · have hrest : ∃ x ∈ rest, entryValid x = false := by
        obtain ⟨x, hx, hxv⟩ := h
        rcases List.mem_cons.mp hx with rfl | hx2
        · rw [hv] at hxv; cases hxv
        · exact ⟨x, hx2, hxv⟩
      obtain ⟨bad, herr, hmem, hbadv⟩ := compile_error_of_invalid rest hrest
      simp only [entryValid, Bool.and_eq_true, Option.isSome_iff_exists] at hv
      obtain ⟨⟨⟨ins, hins⟩, ⟨outs, houts⟩⟩, ⟨cmd, hcmd⟩⟩ := hv
      refine ⟨bad, ?_, List.mem_cons_of_mem e hmem, hbadv⟩
      simp [run_build_compile, hins, houts, hcmd, herr]
    · refine ⟨e, ?_, List.mem_cons_self e rest, Bool.eq_false_iff.mpr hv⟩
      cases hins : e.inputs <;> cases houts : e.outputs <;> cases hcmd : e.command <;>
        simp_all [run_build_compile, entryValid]

/-- Threading a sequence of add-job calls through the persisted state appends
the corresponding entries in call order. -/
theorem run_add_jobs_jobs : ∀ (calls : List AddJobArgs) (st : Option Cache),
    (loadCacheOrEmpty (run_add_jobs calls st)).jobs =
      (loadCacheOrEmpty st).jobs ++ calls.map mkEntry
  | [], st => by simp [run_add_jobs]
  | a :: rest, st => by
    have ih := run_add_jobs_jobs rest (some (add_job a st))
    simp only [run_add_jobs, List.foldl_cons] at ih ⊢
    rw [ih]
    simp [add_job, loadCacheOrEmpty, List.append_assoc]

/-! Claim theorems. -/

/-- Claim C1: on a registry in which every job carries inputs, outputs and
command, the compile loop of run-build emits exactly one rule and exactly
one build edge per job, in registry order; the rule command equals the job
command, the rule name and the edge rule field equal the sanitized command,
and the edge carries the job inputs and outputs in their original order. -/
theorem round_trip_compile (jobs : List Entry)
    (h : ∀ e ∈ jobs, entryValid e = true) :
    run_build_compile jobs = Except.ok (jobs.map ruleOf, jobs.map buildOf) ∧
    ∀ e ∈ jobs, ∀ cmd ins outs,
      e.command = some cmd → e.inputs = some ins → e.outputs = some outs →
      ruleOf e = { name := to_rule_name cmd,
                   description := e.description.getD (defaultDescr cmd),
                   command := cmd } ∧
      buildOf e = { inputs := ins, outputs := outs, rule := to_rule_name cmd } := by
  refine ⟨compile_ok_of_valid jobs h, ?_⟩
  intro e _ cmd ins outs hcmd hins houts
  exact ⟨by simp [ruleOf, hcmd], by simp [buildOf, hins, houts, hcmd]⟩

/-- Claim C1 witness: the round-trip property evaluated on a concrete
one-entry registry. -/
theorem round_trip_compile_witness :
    (∀ e ∈ [wEntry], entryValid e = true) ∧
    (run_build_compile [wEntry] = Except.ok ([wEntry].map ruleOf, [wEntry].map buildOf) ∧
     ∀ e ∈ [wEntry], ∀ cmd ins outs,
       e.command = some cmd → e.inputs = some ins → e.outputs = some outs →
       ruleOf e = { name := to_rule_name cmd,
                    description := e.description.getD (defaultDescr cmd),
                    command := cmd } ∧
       buildOf e = { inputs := ins, outputs := outs, rule := to_rule_name cmd }) :=
  ⟨by decide, round_trip_compile [wEntry] (by decide)⟩

/-- Claim C2: a registry holding any record that misses one of the required
keys makes run-build print an offending record, exit with status 1, and
write no output file, regardless of the other records. -/
theorem missing_field_fail_fast (cache : Cache)
    (h : ∃ e ∈ cache.jobs, entryValid e = false) :
    exitStatus (run_build (some cache)) = 1 ∧
    outputFile (run_build (some cache)) = none ∧
    ∃ bad ∈ cache.jobs, entryValid bad = false ∧
      printedRecord (run_build (some cache)) = some bad := by
  obtain ⟨bad, herr, hmem, hbadv⟩ := compile_error_of_invalid cache.jobs h
  refine ⟨?_, ?_, bad, hmem, hbadv, ?_⟩ <;>
    simp [run_build, herr, exitStatus, outputFile, printedRecord]

/-- Claim C2 witness: the fail-fast property evaluated on a registry with
one valid and one invalid record. -/
theorem missing_field_fail_fast_witness :
    (∃ e ∈ mixedCache.jobs, entryValid e = false) ∧
    (exitStatus (run_build (some mixedCache)) = 1 ∧
     outputFile (run_build (some mixedCache)) = none ∧
     ∃ bad ∈ mixedCache.jobs, entryValid bad = false ∧
       printedRecord (run_build (some mixedCache)) = some bad) :=
  ⟨by decide, missing_field_fail_fast mixedCache (by decide)⟩

/-- Claim C3: to_rule_name keeps exactly the characters that are ASCII
letters, digits or underscore, in their original relative order (the result
is the filtered subsequence of the input, hence matches the restricted
alphabet); termination, purity and determinism hold by construction, the
function being a total Lean definition. -/
theorem to_rule_name_filter_spec (s : String) :
    (to_rule_name s).data = s.data.filter isSpecAllowed ∧
    List.Sublist (to_rule_name s).data s.data ∧
    ∀ c ∈ (to_rule_name s).data, isSpecAllowed c = true := by
  have hfil : s.data.filter allowedChar = s.data.filter isSpecAllowed :=
    List.filter_congr (fun c _ => allowedChar_eq_isSpecAllowed c)
  refine ⟨by simpa [to_rule_name] using hfil, ?_, ?_⟩
  · exact List.filter_sublist s.data
  · intro c hc
    simp only [to_rule_name, List.mem_filter] at hc
    rw [← allowedChar_eq_isSpecAllowed c]
    exact hc.2

/-- Claim C4: one add-job call loads the current registry (empty when the
file is missing), persists it with the new entry appended at the end, and
keeps all prior records unchanged in their original order; a sequence of
add-job calls therefore leaves exactly the calls in call order. -/
theorem add_job_append_order (args : AddJobArgs) (st : Option Cache)
    (calls : List AddJobArgs) :
    (add_job args st).jobs = (loadCacheOrEmpty st).jobs ++ [mkEntry args] ∧
    (loadCacheOrEmpty (run_add_jobs calls st)).jobs =
      (loadCacheOrEmpty st).jobs ++ calls.map mkEntry ∧
    (loadCacheOrEmpty (run_add_jobs calls none)).jobs = calls.map mkEntry := by
  refine ⟨rfl, run_add_jobs_jobs calls st, ?_⟩
  simpa [loadCacheOrEmpty] using run_add_jobs_jobs calls none

/-- Claim C5 counterexample: with no registry file, run_build hits the
unguarded open and fails with FileNotFoundError instead of behaving like a
compile of the empty registry; only the add-job load path recovers. -/
theorem run_build_missing_cache_cex :
    run_build none = RunBuildResult.fileNotFound ∧
    run_build none ≠ run_build (some { jobs := [] }) ∧
    (loadCacheOrEmpty none).jobs = [] := by decide

/-- Claim C5 amended: a missing registry document is recovered as the empty
sequence by the load of add-job, but not by run-build, whose unguarded open
raises FileNotFoundError; an existing document never produces that error. -/
theorem load_recovery_amended :
    (loadCacheOrEmpty none).jobs = [] ∧
    (∀ args, (add_job args none).jobs = [mkEntry args]) ∧
    run_build none = RunBuildResult.fileNotFound ∧
    (∀ c : Cache, run_build (some c) ≠ RunBuildResult.fileNotFound) := by
  refine ⟨rfl, fun args => rfl, rfl, fun c => ?_⟩
  simp only [run_build]
  cases run_build_compile c.jobs with
  | error e => simp
  | ok p => cases p with | mk r b => simp

/-- Claim C6: rule names are not deduplicated: two valid jobs whose commands
sanitize to the same string yield two distinct rule declarations bearing
that same name, one per job. -/
theorem rule_names_not_deduplicated (e1 e2 : Entry)
    (h1 : entryValid e1 = true) (h2 : entryValid e2 = true)
    (hc : to_rule_name (e1.command.getD "") = to_rule_name (e2.command.getD "")) :
    run_build_compile [e1, e2] =
      Except.ok ([ruleOf e1, ruleOf e2], [buildOf e1, buildOf e2]) ∧
    (ruleOf e1).name = (ruleOf e2).name := by
  have hall : ∀ e ∈ [e1, e2], entryValid e = true := by
    intro e he
    rcases List.mem_cons.mp he with rfl | he2
    · exact h1
    · rcases List.mem_cons.mp he2 with rfl | he3
      · exact h2
      · cases he3
  refine ⟨by simpa using compile_ok_of_valid [e1, e2] hall, ?_⟩
  simpa [ruleOf] using hc

/-- Claim C6 witness: the commands run-bang and run-at both sanitize to the
name run, and compiling both jobs emits two rules with that identical
name. -/
theorem rule_names_not_deduplicated_witness :
    entryValid runBangEntry = true ∧ entryValid runAtEntry = true ∧
    to_rule_name (runBangEntry.command.getD "") =
      to_rule_name (runAtEntry.command.getD "") ∧
    to_rule_name (runBangEntry.command.getD "") = "run" ∧
    (run_build_compile [runBangEntry, runAtEntry] =
       Except.ok ([ruleOf runBangEntry, ruleOf runAtEntry],
                  [buildOf runBangEntry, buildOf runAtEntry]) ∧
     (ruleOf runBangEntry).name = (ruleOf runAtEntry).name) :=
  ⟨by decide, by decide, by decide, by decide,
   rule_names_not_deduplicated runBangEntry runAtEntry (by decide) (by decide) (by decide)⟩

/-- Claim C7 counterexample: for the command of literal scenario 1 the
sanitizer returns gcccacoao, not gcccaocaoaoo, and the synthesized default
description places the three dots inside the quotes, so the compiled rule
differs from the claimed one in both fields. -/
theorem literal_scenario_cex :
    to_rule_name "gcc -c a.c -o a.o" = "gcccacoao" ∧
    to_rule_name "gcc -c a.c -o a.o" ≠ "gcccaocaoaoo" ∧
    ("Running " ++ squote ++ "gcc -c a.c -o a.o" ++ "..." ++ squote ≠
     "Running " ++ squote ++ "gcc -c a.c -o a.o" ++ squote ++ "...") ∧
    run_build (some (add_job scenario1Args none)) ≠
      RunBuildResult.success
        [{ name := "gcccaocaoaoo",
           description := "Running " ++ squote ++ "gcc -c a.c -o a.o" ++ squote ++ "...",
           command := "gcc -c a.c -o a.o" }]
        [{ inputs := ["a.c"], outputs := ["a.o"], rule := "gcccaocaoaoo" }] := by decide

/-- Claim C7 amended: literal scenario 1 persists exactly the claimed
registry document, and compiles to a rule named gcccacoao whose description
is Running-quote-command-dots-quote, with the matching build edge. -/
theorem literal_scenario_amended :
    (add_job scenario1Args none).jobs =
      [{ inputs := some ["a.c"], outputs := some ["a.o"],
         command := some "gcc -c a.c -o a.o", description := none }] ∧
    run_build (some (add_job scenario1Args none)) =
      RunBuildResult.success
        [{ name := "gcccacoao",
           description := "Running " ++ squote ++ "gcc -c a.c -o a.o" ++ "..." ++ squote,
           command := "gcc -c a.c -o a.o" }]
        [{ inputs := ["a.c"], outputs := ["a.o"], rule := "gcccacoao" }] := by decide

/-- Claim C8 counterexample: a valid job whose command consists entirely of
filtered characters is not rejected: run-build succeeds with exit status 0
and silently emits a rule whose name is the empty string. -/
theorem empty_rule_name_cex :
    entryValid bangEntry = true ∧
    to_rule_name "!!!" = "" ∧
    run_build (some { jobs := [bangEntry] }) =
      RunBuildResult.success
        [{ name := "",
           description := "Running " ++ squote ++ "!!!" ++ "..." ++ squote,
           command := "!!!" }]
        [{ inputs := ["in.txt"], outputs := ["out.txt"], rule := "" }] ∧
    exitStatus (run_build (some { jobs := [bangEntry] })) = 0 := by decide

/-- Claim C8 amended: for every valid job whose command sanitizes to the
empty string, compilation does not fail: it succeeds with exit status 0 and
emits a rule with an empty name (the specification marks this as a gap of
the reference behavior). -/
theorem empty_rule_name_amended (e : Entry) (h : entryValid e = true)
    (hempty : to_rule_name (e.command.getD "") = "") :
    run_build (some { jobs := [e] }) = RunBuildResult.success [ruleOf e] [buildOf e] ∧
    (ruleOf e).name = "" ∧
    exitStatus (run_build (some { jobs := [e] })) = 0 := by
  have hc := compile_ok_of_valid [e] (by intro x hx; simp at hx; subst hx; exact h)
  refine ⟨?_, ?_, ?_⟩
  · simp [run_build, hc]
  · simpa [ruleOf] using hempty
  · simp [run_build, hc, exitStatus]

/-- Claim C8 amended witness: the non-rejection evaluated on a concrete job
whose command is two at-signs. -/
theorem empty_rule_name_amended_witness :
    entryValid atAtEntry = true ∧
    to_rule_name (atAtEntry.command.getD "") = "" ∧
    (run_build (some { jobs := [atAtEntry] }) =
       RunBuildResult.success [ruleOf atAtEntry] [buildOf atAtEntry] ∧
     (ruleOf atAtEntry).name = "" ∧
     exitStatus (run_build (some { jobs := [atAtEntry] })) = 0) :=
  ⟨by decide, by decide, empty_rule_name_amended atAtEntry (by decide) (by decide)⟩

/-- Claim C9 counterexample: two add-job invocations agreeing on inputs,
outputs, command and description but differing in every executor-metadata
attribute (pipeline name, CI stage, timeout, timeout-ok, accepted return
codes) persist identical job records: none of those attributes is carried
into the registry. -/
theorem job_metadata_cex :
    argsMetaA.pipeline_name ≠ argsMetaB.pipeline_name ∧
    argsMetaA.ci_stage ≠ argsMetaB.ci_stage ∧
    argsMetaA.timeout ≠ argsMetaB.timeout ∧
    argsMetaA.timeout_ok ≠ argsMetaB.timeout_ok ∧
    argsMetaA.ok_returns ≠ argsMetaB.ok_returns ∧
    mkEntry argsMetaA = mkEntry argsMetaB ∧
    add_job argsMetaA none = add_job argsMetaB none := by decide

/-- Claim C9 amended: the persisted job record is a function of inputs,
outputs, command and description alone; the attributes pipeline name, CI
stage, timeout, timeout-ok and accepted return codes are accepted at
creation time but dropped, the stored record carrying only the build-graph
fields. -/
theorem job_metadata_amended (a b : AddJobArgs)
    (hi : a.inputs = b.inputs) (ho : a.outputs = b.outputs)
    (hc : a.command = b.command) (hd : a.description = b.description) :
    mkEntry a = mkEntry b ∧
    (mkEntry a).inputs = some a.inputs ∧
    (mkEntry a).outputs = some a.outputs ∧
    (mkEntry a).command = some a.command := by
  refine ⟨?_, rfl, rfl, rfl⟩
  simp [mkEntry, hi, ho, hc, hd]

/-- Claim C9 amended witness: the metadata-independence applied to a pair of
concrete argument bags. -/
theorem job_metadata_amended_witness :
    argsMetaA.inputs = argsMetaB.inputs ∧
    argsMetaA.outputs = argsMetaB.outputs ∧
    argsMetaA.command = argsMetaB.command ∧
    argsMetaA.description = argsMetaB.description ∧
    (mkEntry argsMetaA = mkEntry argsMetaB ∧
     (mkEntry argsMetaA).inputs = some argsMetaA.inputs ∧
     (mkEntry argsMetaA).outputs = some argsMetaA.outputs ∧
     (mkEntry argsMetaA).command = some argsMetaA.command) :=
  ⟨rfl, rfl, rfl, rfl, job_metadata_amended argsMetaA argsMetaB rfl rfl rfl rfl⟩

/-- Claim C10: an add-job invocation whose description argument is the empty
string persists a record with no description field, identical to the record
of the same invocation without a description, so compilation synthesizes
the default description for the command. -/
theorem empty_description_default (args : AddJobArgs)
    (h : args.description = some "") :
    (mkEntry args).description = none ∧
    mkEntry args = mkEntry { args with description := none } ∧
    run_build_compile [mkEntry args] =
      Except.ok
        ([{ name := to_rule_name args.command,
            description := defaultDescr args.command,
            command := args.command }],
         [{ inputs := args.inputs, outputs := args.outputs,
            rule := to_rule_name args.command }]) := by
  refine ⟨by simp [mkEntry, h], by simp [mkEntry, h], ?_⟩
  simp [run_build_compile, mkEntry, h]

/-- Claim C10 witness: the empty-description behavior evaluated on a
concrete invocation. -/
theorem empty_description_default_witness :
    emptyDescrArgs.description = some "" ∧
    ((mkEntry emptyDescrArgs).description = none ∧
     mkEntry emptyDescrArgs = mkEntry { emptyDescrArgs with description := none } ∧
     run_build_compile [mkEntry emptyDescrArgs] =
       Except.ok
         ([{ name := to_rule_name emptyDescrArgs.command,
             description := defaultDescr emptyDescrArgs.command,
             command := emptyDescrArgs.command }],
          [{ inputs := emptyDescrArgs.inputs, outputs := emptyDescrArgs.outputs,
             rule := to_rule_name emptyDescrArgs.command }])) :=
  ⟨rfl, empty_description_default emptyDescrArgs rfl⟩

end Litani
